import Mathlib

/-!
# The launcher core `libretro-rpcs3-launcher.c`: `retro_load_game`

A shallow embedding of the Linux branch (`#ifdef __linux__`) of `retro_load_game`
(`src/rpcs3/libretro-rpcs3-launcher.c`, lines 159-219) together with the C library
calls it makes, followed by the properties of the launch operation.

* The process environment, the directory tree and the command interpreter are the
  fields of a `World`: what `getenv`, `glob`, `stat` and `system` answer.
* Every library call with an outside effect is recorded, in program order, in the
  `trace` of a `Run`.
* The two `char[512]` arrays keep their size: `snprintf` cuts at `size - 1` bytes,
  and every `strncat` of the composition loop is checked against the 512 bytes of
  `rpcs3_exec` (`composeInArray`): a call that writes past the end of the array ends
  the run with `Outcome.overflow` (undefined behaviour in C) instead of a return value.
-/

namespace Rpcs3Launcher

/-! ## C strings and the string functions of the C library -/

/-- The bytes of a C string before its terminating NUL; one `Char` stands for one byte. -/
abbrev CStr := List Char

/-- The C library `strlen`: the number of bytes before the terminator. -/
def strlen (s : CStr) : Nat := s.length

/-- The string left in a buffer of `size` bytes by `snprintf(buf, size, fmt, ...)`, where
`formatted` is the fully expanded format: at most `size - 1` bytes are stored, then NUL. -/
def snprintf (size : Nat) (formatted : CStr) : CStr := formatted.take (size - 1)

/-- The string at `dest` after `strncat(dest, src, n)`: at most `n` bytes of `src` are
appended (and a terminator). `strncat` knows nothing of the size of the object at `dest`. -/
def strncat (dest src : CStr) (n : Nat) : CStr := dest ++ src.take n

/-- The file-type bit mask of `st_mode` (`<sys/stat.h>`, Linux). -/
def S_IFMT : Nat := 0o170000

/-- The file-type value of a directory (`<sys/stat.h>`, Linux). -/
def S_IFDIR : Nat := 0o040000

/-- The `<sys/stat.h>` test `S_ISDIR(m)`: `(m & S_IFMT) == S_IFDIR`. -/
def S_ISDIR (st_mode : Nat) : Bool := (st_mode &&& S_IFMT) == S_IFDIR

/-! ## The outside world and the observable behaviour -/

/-- What the calls of `retro_load_game` into the operating system answer.
* `getenv name`: the value of the variable, `none` for a NULL result;
* `glob pattern`: `some gl_pathv` when `glob` returns 0, `none` for any other return
  value (`GLOB_NOMATCH`, `GLOB_ABORTED`, `GLOB_NOSPACE`);
* `stat path`: `some st_mode` when `stat` returns 0, `none` when it fails;
* `system command`: the value returned by `system`. -/
structure World where
  getenv : CStr → Option CStr
  glob : CStr → Option (List CStr)
  stat : CStr → Option Nat
  system : CStr → Int

/-- The field of `struct retro_game_info` read by `retro_load_game`: `info->path`, a
non-null C string. -/
structure retro_game_info where
  path : CStr

/-- One library call with an effect outside the function, with its argument. -/
inductive Event where
  | getenv (name : CStr)
  | glob (pattern : CStr)
  | stat (path : CStr)
  | globfree
  | printf (text : CStr)
  | system (command : CStr)
deriving DecidableEq, Repr

/-- How a run of `retro_load_game` ends: with a return value, or in the undefined
behaviour of a `strncat` that wrote past the end of `rpcs3_exec`. -/
inductive Outcome where
  | returned (value : Bool)
  | overflow
deriving DecidableEq, Repr

/-- A run: the library calls made, in order, and how the run ended. -/
structure Run where
  trace : List Event
  outcome : Outcome
deriving DecidableEq, Repr

/-- `sizeof(path)` for `char path[512]` (line 165). -/
def sizeof_path : Nat := 512

/-- `sizeof(rpcs3_exec)` for `char rpcs3_exec[512]` (line 166). -/
def sizeof_rpcs3_exec : Nat := 512

/-- The name handed to `getenv` (line 167). -/
def HOME : CStr := "HOME".toList

/-- The format of line 172 after its `%s`. -/
def patternSuffix : CStr := "/.config/retroarch/system/rpcs3/rpcs3*".toList

/-- Line 172: `snprintf(path, sizeof(path), "%s/.config/retroarch/system/rpcs3/rpcs3*", home)`. -/
def globPattern (home : CStr) : CStr := snprintf sizeof_path (home ++ patternSuffix)

/-- The condition of line 176: `stat(p, &path_stat) == 0 && !S_ISDIR(path_stat.st_mode)`. -/
def isCandidate (stat : CStr → Option Nat) (p : CStr) : Bool :=
  match stat p with
  | some st_mode => !S_ISDIR st_mode
  | none => false

/-- The loop of lines 175-180 over `gl_pathv`: one `stat` per entry visited; the first
entry passing the test of line 176 is copied by `snprintf(rpcs3_exec, sizeof(rpcs3_exec),
"%s", ...)` and ends the loop (`break`); with no such entry `rpcs3_exec` is left as it was.
The result is the final `rpcs3_exec` and the calls made. -/
def scanPathv (stat : CStr → Option Nat) (rpcs3_exec : CStr) : List CStr → CStr × List Event
  | [] => (rpcs3_exec, [])
  | p :: rest =>
    if isCandidate stat p then (snprintf sizeof_rpcs3_exec p, [Event.stat p])
    else ((scanPathv stat rpcs3_exec rest).1, Event.stat p :: (scanPathv stat rpcs3_exec rest).2)

/-- Lines 174-182: `glob`, the loop over its results and `globfree`, starting from
`rpcs3_exec = ""` (line 166). A failing `glob` leaves `rpcs3_exec` empty. -/
def resolveExecutable (w : World) (pattern : CStr) : CStr × List Event :=
  match w.glob pattern with
  | some gl_pathv =>
    ((scanPathv w.stat [] gl_pathv).1,
      Event.glob pattern :: (scanPathv w.stat [] gl_pathv).2 ++ [Event.globfree])
  | none => ([], [Event.glob pattern])

/-- Line 204: `const char *args[] = {" ", "\"", info->path, "\""}`. -/
def args (content : CStr) : List CStr :=
  [" ".toList, "\x22".toList, content, "\x22".toList]

/-- The bytes that the calls `strncat(rpcs3_exec, args[i], strlen(args[i]))` of lines
206-208 set out to write from the start of `rpcs3_exec`, with no regard for the size of
the array: the measure of what the loop needs, not the loop in the array (that is
`composeInArray`). -/
def composeCommand (rpcs3_exec : CStr) (args : List CStr) : CStr :=
  args.foldl (fun acc a => strncat acc a (strlen a)) rpcs3_exec

/-- Whether a string and its terminator fit in an array of `size` bytes. -/
def fitsBuffer (size : Nat) (s : CStr) : Bool := decide (strlen s + 1 ≤ size)

/-- The call `strncat(dest, src, n)` where `dest` is an array of `size` bytes: the string
left in the array, or `none` when the call writes past the end of the array (undefined
behaviour). -/
def strncatInto (size : Nat) (dest src : CStr) (n : Nat) : Option CStr :=
  if fitsBuffer size (strncat dest src n) then some (strncat dest src n) else none

/-- The loop of lines 206-208 in the array `rpcs3_exec` of `size` bytes:
`strncat(rpcs3_exec, args[i], strlen(args[i]))` for each element of `args` in turn. The
result is the command left in the array, or `none` as soon as one call writes past its
end. -/
def composeInArray (size : Nat) (rpcs3_exec : CStr) (args : List CStr) : Option CStr :=
  args.foldlM (fun acc a => strncatInto size acc a (strlen a)) rpcs3_exec

/-- The text printed by line 210. -/
def pathLine (command : CStr) : CStr := "rpcs3 path: ".toList ++ command ++ "\n".toList

/-- The text printed by line 213. -/
def finishedLine : CStr := "libretro-rpcs3-launcher: Finished running rpcs3.\n".toList

/-- The text printed by line 217. -/
def failedLine : CStr :=
  "libretro-rpcs3-launcher: Failed running rpcs3. Place it in the right path and try again\n".toList

/-- Lines 204-218, entered with the resolved `rpcs3_exec` and the calls made so far:
the composition loop in the 512-byte array, then `printf`, `system` and the result. A
`strncat` that leaves the array ends the run in `Outcome.overflow`. -/
def composeAndLaunch (w : World) (before : List Event) (rpcs3_exec content : CStr) : Run :=
  match composeInArray sizeof_rpcs3_exec rpcs3_exec (args content) with
  | some command =>
    if w.system command = 0 then
      { trace := before ++ [Event.printf (pathLine command), Event.system command,
                            Event.printf finishedLine],
        outcome := Outcome.returned true }
    else
      { trace := before ++ [Event.printf (pathLine command), Event.system command,
                            Event.printf failedLine],
        outcome := Outcome.returned false }
  | none => { trace := before, outcome := Outcome.overflow }

/-- The function `retro_load_game` (lines 159-219), Linux branch. -/
def retro_load_game (w : World) (info : retro_game_info) : Run :=
  match w.getenv HOME with
  | none => { trace := [Event.getenv HOME], outcome := Outcome.returned false }
  | some home =>
    composeAndLaunch w
      (Event.getenv HOME :: (resolveExecutable w (globPattern home)).2)
      (resolveExecutable w (globPattern home)).1 info.path

/-! ## Reading a run -/

/-- The command of a `system` call. -/
def Event.systemArg : Event → Option CStr
  | Event.system command => some command
  | _ => none

/-- The pattern of a `glob` call. -/
def Event.globArg : Event → Option CStr
  | Event.glob pattern => some pattern
  | _ => none

/-- The path of a `stat` call. -/
def Event.statArg : Event → Option CStr
  | Event.stat path => some path
  | _ => none

/-- The text of a `printf` call. -/
def Event.printfArg : Event → Option CStr
  | Event.printf text => some text
  | _ => none

/-- The commands handed to `system` during a run, in order. -/
def systemCalls (r : Run) : List CStr := r.trace.filterMap Event.systemArg

/-- The patterns handed to `glob` during a run, in order. -/
def globCalls (r : Run) : List CStr := r.trace.filterMap Event.globArg

/-- The paths handed to `stat` during a run, in order. -/
def statCalls (r : Run) : List CStr := r.trace.filterMap Event.statArg

/-- The texts printed during a run, in order. -/
def printed (r : Run) : List CStr := r.trace.filterMap Event.printfArg

/-- Whether `stat` reports the entry to be a directory. -/
def isDirectory (stat : CStr → Option Nat) (p : CStr) : Bool :=
  match stat p with
  | some st_mode => S_ISDIR st_mode
  | none => false

/-! ## How `sh -c` splits a command line into words

`system(command)` runs `sh -c command`. The interpreter is not part of the repository;
the properties that speak of "shell word-splitting/quoting rules" are stated against the
token recognition of the POSIX shell (XCU 2.2 Quoting, 2.3 Token Recognition), restricted
to blanks, the command separators `;` and newline, backslash, single quotes and double
quotes. Any other operator or expansion is outside the fragment and the split gives `none`. -/

/-- The double-quote character. -/
def chDQuote : Char := Char.ofNat 34

/-- The single-quote character. -/
def chSQuote : Char := Char.ofNat 39

/-- The backslash character. -/
def chBackslash : Char := Char.ofNat 92

/-- The backquote character. -/
def chBacktick : Char := Char.ofNat 96

/-- The characters that POSIX (XCU 2.2) requires, or may require, to be quoted to stand
for themselves: the operators, dollar, backquote, backslash, the quotes, blank, tab and
newline, and the conditionally special `* ? [ # ~ = %`. -/
def shSpecial (c : Char) : Bool :=
  c ∈ "|&;<>()$\x60\x5c\x22\x27 \t\n*?[#~=%".toList

/-- Where the scanner is: outside quotes, right after an unquoted backslash, inside double
quotes, right after a backslash inside double quotes, inside single quotes. -/
inductive ShMode where
  | unquoted
  | escaped
  | dquoted
  | dqEscaped
  | squoted
deriving DecidableEq, Repr

/-- The scanner state: the word being built (`none` when no word has started), the
finished words of the current command, and the finished commands. -/
structure ShState where
  mode : ShMode
  word : Option CStr
  words : List CStr
  commands : List (List CStr)
deriving DecidableEq, Repr

/-- Append a character to the current word, starting one if needed. -/
def ShState.push (st : ShState) (c : Char) : ShState :=
  { st with word := some (st.word.getD [] ++ [c]) }

/-- Close the current word, if one has started. -/
def ShState.endWord (st : ShState) : ShState :=
  { st with word := none, words := st.words ++ st.word.toList }

/-- Close the current word and the current command. -/
def ShState.endCommand (st : ShState) : ShState :=
  { st.endWord with words := [], commands := st.commands ++ [st.endWord.words] }

/-- One character of input. -/
def shStep (st : ShState) (c : Char) : Option ShState :=
  match st.mode with
  | ShMode.unquoted =>
    if c = ' ' ∨ c = '\t' then some st.endWord
    else if c = ';' then
      (if st.endWord.words = [] then none else some st.endCommand)
    else if c = '\n' then
      (if st.endWord.words = [] then some st.endWord else some st.endCommand)
    else if c = chDQuote then
      some { st with mode := ShMode.dquoted, word := some (st.word.getD []) }
    else if c = chSQuote then
      some { st with mode := ShMode.squoted, word := some (st.word.getD []) }
    else if c = chBackslash then some { st with mode := ShMode.escaped }
    else if shSpecial c then none
    else some (st.push c)
  | ShMode.escaped =>
    if c = '\n' then some { st with mode := ShMode.unquoted }
    else some { st.push c with mode := ShMode.unquoted }
  | ShMode.dquoted =>
    if c = chDQuote then some { st with mode := ShMode.unquoted }
    else if c = chBackslash then some { st with mode := ShMode.dqEscaped }
    else if c = '$' ∨ c = chBacktick then none
    else some (st.push c)
  | ShMode.dqEscaped =>
    if c = '\n' then some { st with mode := ShMode.dquoted }
    else if c = '$' ∨ c = chBacktick ∨ c = chDQuote ∨ c = chBackslash then
      some { st.push c with mode := ShMode.dquoted }
    else some { (st.push chBackslash).push c with mode := ShMode.dquoted }
  | ShMode.squoted =>
    if c = chSQuote then some { st with mode := ShMode.unquoted }
    else some (st.push c)

/-- The scanner over a whole input. -/
def shRun (st : ShState) : List Char → Option ShState
  | [] => some st
  | c :: rest => (shStep st c).bind fun st' => shRun st' rest

/-- End of input: an open quote or a dangling backslash is an error; otherwise the last
word and command are closed. -/
def shFinish (st : ShState) : Option (List (List CStr)) :=
  if st.mode = ShMode.unquoted then
    some (if st.endWord.words = [] then st.commands else st.endCommand.commands)
  else none

/-- The scanner's initial state. -/
def shInit : ShState :=
  { mode := ShMode.unquoted, word := none, words := [], commands := [] }

/-- The commands of a command line, each the list of its words (command name first). -/
def shSplit (command : CStr) : Option (List (List CStr)) :=
  (shRun shInit command).bind shFinish

/-! ## Concrete situations -/

/-- A home directory. -/
def homeU : CStr := "/home/u".toList

/-- The emulator binary in the searched directory. -/
def emuPath : CStr := "/home/u/.config/retroarch/system/rpcs3/rpcs3-v0.0.30.AppImage".toList

/-- A directory in the searched directory whose name matches the pattern. -/
def emuDir : CStr := "/home/u/.config/retroarch/system/rpcs3/rpcs3-data".toList

/-- A symbolic link in the searched directory whose name matches the pattern and whose
target does not exist: `glob` lists it, `stat` fails on it. -/
def emuLink : CStr := "/home/u/.config/retroarch/system/rpcs3/rpcs3-alpha".toList

/-- A content path. -/
def romPath : CStr := "/roms/game.bin".toList

/-- The `st_mode` of a directory with permissions 0755. -/
def modeDir : Nat := 0o040755

/-- The `st_mode` of a regular file with permissions 0755. -/
def modeFile : Nat := 0o100755

/-- An environment whose only variable is `HOME`. -/
def envWithHome (home : CStr) : CStr → Option CStr :=
  fun name => if name = HOME then some home else none

/-- `HOME` is not set; the emulator is installed. -/
def worldNoHome : World where
  getenv := fun _ => none
  glob := fun _ => some [emuPath]
  stat := fun _ => some modeFile
  system := fun _ => 0

/-- `HOME` is `/home/u` and nothing matches the pattern (`glob` returns `GLOB_NOMATCH`);
`system` returns `status` for every command. -/
def worldNoMatch (status : Int) : World where
  getenv := envWithHome homeU
  glob := fun _ => none
  stat := fun _ => none
  system := fun _ => status

/-- `HOME` is `/home/u`; the searched directory holds a matching directory and the
emulator binary, listed in this order; `system` returns `status` for every command. -/
def worldInstalled (status : Int) : World where
  getenv := envWithHome homeU
  glob := fun pattern => if pattern = globPattern homeU then some [emuDir, emuPath] else none
  stat := fun p =>
    if p = emuDir then some modeDir else if p = emuPath then some modeFile else none
  system := fun _ => status

/-- As `worldInstalled`, with a dangling symbolic link listed before the binary. -/
def worldDangling : World where
  getenv := envWithHome homeU
  glob := fun pattern => if pattern = globPattern homeU then some [emuLink, emuPath] else none
  stat := fun p => if p = emuPath then some modeFile else none
  system := fun _ => 0

/-- A home directory of 352 bytes (two path components of 250 and 100 bytes). -/
def midHome : CStr := '/' :: List.replicate 250 'u' ++ '/' :: List.replicate 100 'v'

/-- An emulator binary under `midHome` with a file name of 205 bytes: 589 bytes in all. -/
def longExec : CStr :=
  midHome ++ ("/.config/retroarch/system/rpcs3/rpcs3".toList ++ List.replicate 200 'x')

/-- `HOME` is `midHome` and the only match is the regular file `longExec`. -/
def worldLongName : World where
  getenv := envWithHome midHome
  glob := fun pattern => if pattern = globPattern midHome then some [longExec] else none
  stat := fun p => if p = longExec then some modeFile else none
  system := fun _ => 0

/-- A home directory of 502 bytes (two path components of 250 bytes). -/
def longHome : CStr := '/' :: List.replicate 250 'u' ++ '/' :: List.replicate 250 'v'

/-- `HOME` is `longHome`; nothing matches. -/
def worldLongHome : World where
  getenv := envWithHome longHome
  glob := fun _ => none
  stat := fun _ => none
  system := fun _ => 32256

/-- A content path of 510 bytes. -/
def longRom : CStr := "/roms/".toList ++ (List.replicate 500 'a' ++ ".bin".toList)

/-- A content path with an embedded double quote followed by a second command. -/
def quoteRom : CStr := "/roms/a\x22; reboot; \x22".toList

/-- As `worldInstalled`, but the only entry matching the pattern is a directory. -/
def worldOnlyDir (status : Int) : World where
  getenv := envWithHome homeU
  glob := fun pattern => if pattern = globPattern homeU then some [emuDir] else none
  stat := fun p => if p = emuDir then some modeDir else none
  system := fun _ => status

/-- The resolver in the words of the specification: the first entry, in enumeration
order, that is not a directory. -/
def firstNonDirectory (stat : CStr → Option Nat) (pathv : List CStr) : Option CStr :=
  pathv.find? fun p => !isDirectory stat p

/-! ## Supporting lemmas -/

/-- A `strncat` bounded by the length of its source appends the whole source. -/
theorem strncat_strlen (dest src : CStr) : strncat dest src (strlen src) = dest ++ src := by
  simp [strncat, strlen]

/-- The string built by the loop of lines 206-208. -/
theorem composeCommand_args (e c : CStr) :
    composeCommand e (args c) = e ++ ' ' :: chDQuote :: (c ++ [chDQuote]) := by
  have hq : "\x22".toList = [chDQuote] := by decide
  have hs : " ".toList = [' '] := by decide
  simp only [composeCommand, args, List.foldl, strncat_strlen, hq, hs]
  simp

/-- The length of the composed command. -/
theorem strlen_composeCommand (e c : CStr) :
    strlen (composeCommand e (args c)) = strlen e + strlen c + 3 := by
  rw [composeCommand_args]
  simp only [strlen, List.length_append, List.length_cons, List.length_nil]
  omega

/-- The composed command fits in `rpcs3_exec` exactly when the two paths have at most 508 bytes together. -/
theorem fitsBuffer_composeCommand (e c : CStr) :
    fitsBuffer sizeof_rpcs3_exec (composeCommand e (args c)) = true
      ↔ strlen e + strlen c ≤ 508 := by
  simp only [fitsBuffer, strlen_composeCommand, sizeof_rpcs3_exec, decide_eq_true_eq]
  omega

/-- Outside quotes, a character that is not special is appended to the current word. -/
theorem shStep_plain (wd : Option CStr) (ws : List CStr) (cmds : List (List CStr)) (c : Char)
    (hc : shSpecial c = false) :
    shStep { mode := ShMode.unquoted, word := wd, words := ws, commands := cmds } c
      = some { mode := ShMode.unquoted, word := some (wd.getD [] ++ [c]), words := ws,
               commands := cmds } := by
  have h1 : c ≠ ' ' := by rintro rfl; revert hc; decide
  have h2 : c ≠ '\t' := by rintro rfl; revert hc; decide
  have h3 : c ≠ ';' := by rintro rfl; revert hc; decide
  have h4 : c ≠ '\n' := by rintro rfl; revert hc; decide
  have h5 : c ≠ chDQuote := by rintro rfl; revert hc; decide
  have h6 : c ≠ chSQuote := by rintro rfl; revert hc; decide
  have h7 : c ≠ chBackslash := by rintro rfl; revert hc; decide
  simp [shStep, ShState.push, h1, h2, h3, h4, h5, h6, h7, hc]

/-- Inside double quotes, a character other than the double quote, backslash, dollar and backquote is appended to the current word. -/
theorem shStep_dq (wd : Option CStr) (ws : List CStr) (cmds : List (List CStr)) (c : Char)
    (h1 : c ≠ chDQuote) (h2 : c ≠ chBackslash) (h3 : c ≠ '$') (h4 : c ≠ chBacktick) :
    shStep { mode := ShMode.dquoted, word := wd, words := ws, commands := cmds } c
      = some { mode := ShMode.dquoted, word := some (wd.getD [] ++ [c]), words := ws,
               commands := cmds } := by
  simp [shStep, ShState.push, h1, h2, h3, h4]

/-- Scanning a concatenation is scanning its parts in turn. -/
theorem shRun_append (st : ShState) (a b : List Char) :
    shRun st (a ++ b) = (shRun st a).bind fun st' => shRun st' b := by
  induction a generalizing st with
  | nil => simp [shRun]
  | cons c a ih =>
    simp only [List.cons_append, shRun]
    cases shStep st c with
    | none => simp
    | some st' => simp [ih]

/-- Outside quotes, a run of characters that are not special extends the current word. -/
theorem shRun_plain (e : CStr) (he : ∀ ch ∈ e, shSpecial ch = false) (wd : CStr)
    (ws : List CStr) (cmds : List (List CStr)) :
    shRun { mode := ShMode.unquoted, word := some wd, words := ws, commands := cmds } e
      = some { mode := ShMode.unquoted, word := some (wd ++ e), words := ws, commands := cmds } := by
  induction e generalizing wd with
  | nil => simp [shRun]
  | cons c e ih =>
    have hc : shSpecial c = false := he c (List.mem_cons_self _ _)
    have he2 : ∀ ch ∈ e, shSpecial ch = false := fun ch h => he ch (List.mem_cons_of_mem _ h)
    simp [shRun, shStep_plain _ _ _ c hc, ih he2]

/-- Inside double quotes, a run of characters without the four characters special there extends the current word. -/
theorem shRun_dq (c : CStr)
    (hc : ∀ ch ∈ c, ch ≠ chDQuote ∧ ch ≠ chBackslash ∧ ch ≠ '$' ∧ ch ≠ chBacktick)
    (wd : CStr) (ws : List CStr) (cmds : List (List CStr)) :
    shRun { mode := ShMode.dquoted, word := some wd, words := ws, commands := cmds } c
      = some { mode := ShMode.dquoted, word := some (wd ++ c), words := ws, commands := cmds } := by
  induction c generalizing wd with
  | nil => simp [shRun]
  | cons a c ih =>
    obtain ⟨h1, h2, h3, h4⟩ := hc a (List.mem_cons_self _ _)
    have hc2 : ∀ ch ∈ c, ch ≠ chDQuote ∧ ch ≠ chBackslash ∧ ch ≠ '$' ∧ ch ≠ chBacktick :=
      fun ch h => hc ch (List.mem_cons_of_mem _ h)
    simp [shRun, shStep_dq _ _ _ a h1 h2 h3 h4, ih hc2]

/-- A plain word followed by a blank and a double-quoted text splits into these two words. -/
theorem shSplit_quoted (e c : CStr) (hne : e ≠ [])
    (he : ∀ ch ∈ e, shSpecial ch = false)
    (hc : ∀ ch ∈ c, ch ≠ chDQuote ∧ ch ≠ chBackslash ∧ ch ≠ '$' ∧ ch ≠ chBacktick) :
    shSplit (e ++ ' ' :: chDQuote :: (c ++ [chDQuote])) = some [[e, c]] := by
  cases e with
  | nil => exact absurd rfl hne
  | cons a e =>
    have ha : shSpecial a = false := he a (List.mem_cons_self _ _)
    have he2 : ∀ ch ∈ e, shSpecial ch = false := fun ch h => he ch (List.mem_cons_of_mem _ h)
    have hq : chDQuote ≠ ' ' ∧ chDQuote ≠ '\t' ∧ chDQuote ≠ ';' ∧ chDQuote ≠ '\n' := by decide
    have h1 : shRun shInit ((a :: e) ++ [' ', chDQuote])
        = some { mode := ShMode.dquoted, word := some [], words := [a :: e], commands := [] } := by
      show shRun shInit (a :: (e ++ [' ', chDQuote])) = _
      rw [shRun, shInit, shStep_plain _ _ _ a ha, Option.some_bind, shRun_append,
        shRun_plain e he2, Option.some_bind]
      simp [shRun, shStep, ShState.endWord, hq]
    have h2 : (a :: e) ++ ' ' :: chDQuote :: (c ++ [chDQuote])
        = ((a :: e) ++ [' ', chDQuote]) ++ (c ++ [chDQuote]) := by simp
    rw [shSplit, h2, shRun_append, h1, Option.some_bind, shRun_append, shRun_dq c hc]
    simp [shRun, shStep, shFinish, ShState.endWord, ShState.endCommand]

/-- With `HOME` set, `retro_load_game` goes on to the search and the launch. -/
theorem retro_load_game_of_home (w : World) (info : retro_game_info) (home : CStr)
    (h : w.getenv HOME = some home) :
    retro_load_game w info
      = composeAndLaunch w (Event.getenv HOME :: (resolveExecutable w (globPattern home)).2)
          (resolveExecutable w (globPattern home)).1 info.path := by
  simp [retro_load_game, h]

/-- The loop over `gl_pathv` calls neither `system` nor `glob` nor `printf`. -/
theorem scanPathv_trace (stat : CStr → Option Nat) (init : CStr) (pathv : List CStr) :
    (scanPathv stat init pathv).2.filterMap Event.systemArg = [] ∧
    (scanPathv stat init pathv).2.filterMap Event.globArg = [] ∧
    (scanPathv stat init pathv).2.filterMap Event.printfArg = [] := by
  induction pathv with
  | nil => simp [scanPathv]
  | cons p rest ih =>
    by_cases hp : isCandidate stat p = true
    · simp [scanPathv, hp, Event.systemArg, Event.globArg, Event.printfArg]
    · simp [scanPathv, hp, Event.systemArg, Event.globArg, Event.printfArg, ih]

/-- The search calls `glob` once, with its pattern, and neither `system` nor `printf`. -/
theorem resolveExecutable_trace (w : World) (pattern : CStr) :
    (resolveExecutable w pattern).2.filterMap Event.systemArg = [] ∧
    (resolveExecutable w pattern).2.filterMap Event.globArg = [pattern] ∧
    (resolveExecutable w pattern).2.filterMap Event.printfArg = [] := by
  unfold resolveExecutable
  cases w.glob pattern with
  | none => simp [Event.systemArg, Event.globArg, Event.printfArg]
  | some pathv =>
    obtain ⟨h1, h2, h3⟩ := scanPathv_trace w.stat [] pathv
    simp [List.filterMap_append, Event.systemArg, Event.globArg, Event.printfArg, h1, h2, h3]

/-- A `strncat` bounded by the length of its source stays in the array exactly when the
destination, the source and the terminator fit. -/
theorem strncatInto_strlen (size : Nat) (dest src : CStr) :
    strncatInto size dest src (strlen src)
      = if dest.length + src.length + 1 ≤ size then some (dest ++ src) else none := by
  rw [strncatInto, strncat_strlen]
  simp [fitsBuffer, strlen]

/-- The loop in the array leaves the whole command when the two paths have at most 508
bytes together, and leaves the array otherwise. -/
theorem composeInArray_args (e c : CStr) :
    composeInArray sizeof_rpcs3_exec e (args c)
      = if strlen e + strlen c ≤ 508 then some (e ++ ' ' :: chDQuote :: (c ++ [chDQuote]))
        else none := by
  have hq : "\x22".toList = [chDQuote] := by decide
  have hs : " ".toList = [' '] := by decide
  simp only [composeInArray, args, hq, hs, List.foldlM, strncatInto_strlen, sizeof_rpcs3_exec]
  simp only [strlen]
  by_cases h1 : e.length + [' '].length + 1 ≤ 512
  · simp only [if_pos h1, Option.bind_eq_bind, Option.some_bind]
    by_cases h2 : (e ++ [' ']).length + [chDQuote].length + 1 ≤ 512
    · simp only [if_pos h2, Option.some_bind]
      by_cases h3 : (e ++ [' '] ++ [chDQuote]).length + c.length + 1 ≤ 512
      · simp only [if_pos h3, Option.some_bind]
        by_cases h4 : (e ++ [' '] ++ [chDQuote] ++ c).length + [chDQuote].length + 1 ≤ 512
        · have h : e.length + c.length ≤ 508 := by
            simp only [List.length_append, List.length_cons, List.length_nil] at h4
            omega
          rw [if_pos h4, if_pos h]
          simp
        · have h : ¬ (e.length + c.length ≤ 508) := by
            simp only [List.length_append, List.length_cons, List.length_nil] at h4
            omega
          rw [if_neg h4, if_neg h]
          rfl
      · have h : ¬ (e.length + c.length ≤ 508) := by
          simp only [List.length_append, List.length_cons, List.length_nil] at h3
          omega
        rw [if_neg h3, if_neg h]
        rfl
    · have h : ¬ (e.length + c.length ≤ 508) := by
        simp only [List.length_append, List.length_cons, List.length_nil] at h2
        omega
      rw [if_neg h2, if_neg h]
      rfl
  · have h : ¬ (e.length + c.length ≤ 508) := by
      simp only [List.length_cons, List.length_nil] at h1
      omega
    rw [if_neg h1, if_neg h]
    rfl

/-- The loop in the array when the command fits. -/
theorem composeInArray_of_fits (e c : CStr) (hfit : strlen e + strlen c ≤ 508) :
    composeInArray sizeof_rpcs3_exec e (args c) = some (composeCommand e (args c)) := by
  rw [composeInArray_args, if_pos hfit, composeCommand_args]

/-- The loop in the array when the command does not fit. -/
theorem composeInArray_of_not_fits (e c : CStr) (hfit : 508 < strlen e + strlen c) :
    composeInArray sizeof_rpcs3_exec e (args c) = none := by
  rw [composeInArray_args, if_neg (by omega)]

/-- When the two paths have at most 508 bytes together, the executable path is a plain
non-empty word and the content path holds none of the characters special between double
quotes, the command left in the array splits into the executable and the content path. -/
theorem shSplit_composeInArray (e c : CStr) (hne : e ≠ [])
    (he : ∀ ch ∈ e, shSpecial ch = false)
    (hc : ∀ ch ∈ c, ch ≠ chDQuote ∧ ch ≠ chBackslash ∧ ch ≠ '$' ∧ ch ≠ chBacktick)
    (hfit : strlen e + strlen c ≤ 508) :
    (composeInArray sizeof_rpcs3_exec e (args c)).bind shSplit = some [[e, c]] := by
  rw [composeInArray_args, if_pos hfit, Option.some_bind]
  exact shSplit_quoted e c hne he hc

/-- The launch when the composed command fits in `rpcs3_exec`. -/
theorem composeAndLaunch_of_fits (w : World) (before : List Event) (e c : CStr)
    (hfit : strlen e + strlen c ≤ 508) :
    composeAndLaunch w before e c
      = { trace := before ++ [Event.printf (pathLine (composeCommand e (args c))),
            Event.system (composeCommand e (args c)),
            Event.printf (if w.system (composeCommand e (args c)) = 0
              then finishedLine else failedLine)],
          outcome := Outcome.returned (decide (w.system (composeCommand e (args c)) = 0)) } := by
  have hf := composeInArray_of_fits e c hfit
  by_cases hs : w.system (composeCommand e (args c)) = 0
  · simp [composeAndLaunch, hf, hs]
  · simp [composeAndLaunch, hf, hs]

/-- The launch when the composed command does not fit in `rpcs3_exec`. -/
theorem composeAndLaunch_of_not_fits (w : World) (before : List Event) (e c : CStr)
    (hfit : 508 < strlen e + strlen c) :
    composeAndLaunch w before e c = { trace := before, outcome := Outcome.overflow } := by
  have hf := composeInArray_of_not_fits e c hfit
  simp [composeAndLaunch, hf]

/-- A run with `HOME` set whose composed command fits: one `system` call with the composed command, the result decided by its status, two lines printed, one `glob` call. -/
theorem run_of_fits (w : World) (info : retro_game_info) (home : CStr)
    (h : w.getenv HOME = some home)
    (hfit : strlen (resolveExecutable w (globPattern home)).1 + strlen info.path ≤ 508) :
    systemCalls (retro_load_game w info)
        = [composeCommand (resolveExecutable w (globPattern home)).1 (args info.path)] ∧
    (retro_load_game w info).outcome
        = Outcome.returned (decide (w.system
            (composeCommand (resolveExecutable w (globPattern home)).1 (args info.path)) = 0)) ∧
    printed (retro_load_game w info)
        = [pathLine (composeCommand (resolveExecutable w (globPattern home)).1 (args info.path)),
           if w.system (composeCommand (resolveExecutable w (globPattern home)).1
                (args info.path)) = 0 then finishedLine else failedLine] ∧
    globCalls (retro_load_game w info) = [globPattern home] := by
  obtain ⟨h1, h2, h3⟩ := resolveExecutable_trace w (globPattern home)
  rw [retro_load_game_of_home w info home h, composeAndLaunch_of_fits w _ _ _ hfit]
  simp [systemCalls, printed, globCalls, List.filterMap_append, Event.systemArg, Event.globArg,
    Event.printfArg, h1, h2, h3]

/-- A run with `HOME` set whose composed command does not fit: it ends in the overflow before anything is printed or launched. -/
theorem run_of_not_fits (w : World) (info : retro_game_info) (home : CStr)
    (h : w.getenv HOME = some home)
    (hfit : 508 < strlen (resolveExecutable w (globPattern home)).1 + strlen info.path) :
    systemCalls (retro_load_game w info) = [] ∧
    (retro_load_game w info).outcome = Outcome.overflow ∧
    printed (retro_load_game w info) = [] ∧
    globCalls (retro_load_game w info) = [globPattern home] := by
  obtain ⟨h1, h2, h3⟩ := resolveExecutable_trace w (globPattern home)
  rw [retro_load_game_of_home w info home h, composeAndLaunch_of_not_fits w _ _ _ hfit]
  simp [systemCalls, printed, globCalls, Event.systemArg, Event.globArg,
    Event.printfArg, h1, h2, h3]

/-- The loop over `gl_pathv` leaves in `rpcs3_exec` the copy of the first entry passing the test of line 176, or its initial content. -/
theorem scanPathv_fst (stat : CStr → Option Nat) (init : CStr) (pathv : List CStr) :
    (scanPathv stat init pathv).1
      = ((pathv.find? (isCandidate stat)).map (snprintf sizeof_rpcs3_exec)).getD init := by
  induction pathv with
  | nil => simp [scanPathv]
  | cons p rest ih =>
    by_cases hp : isCandidate stat p = true
    · simp [scanPathv, hp, List.find?_cons]
    · simp [scanPathv, hp, List.find?_cons, ih]

/-- The copy made by `snprintf` is exact when the text and its terminator fit. -/
theorem snprintf_of_fits (size : Nat) (s : CStr) (h : strlen s + 1 ≤ size) :
    snprintf size s = s := by
  unfold snprintf strlen at *
  exact List.take_of_length_le (by omega)

/-- When exactly one element passes a test, it is the first one found. -/
theorem find?_of_filter_singleton (f : CStr → Bool) (l : List CStr) (p : CStr)
    (h : l.filter f = [p]) : l.find? f = some p := by
  induction l with
  | nil => simp at h
  | cons a l ih =>
    by_cases ha : f a = true
    · simp only [List.filter_cons, ha, if_true, List.cons.injEq] at h
      rw [List.find?_cons, ha, h.1]
    · simp [List.filter_cons, ha] at h
      simp [List.find?_cons, ha, ih h]

/-- Two tests that agree on a list find the same element. -/
theorem find?_congr_on (f g : CStr → Bool) (l : List CStr) (h : ∀ p ∈ l, f p = g p) :
    l.find? f = l.find? g := by
  induction l with
  | nil => rfl
  | cons a l ih =>
    have ha : f a = g a := h a (List.mem_cons_self _ _)
    have hl : ∀ p ∈ l, f p = g p := fun p hp => h p (List.mem_cons_of_mem _ hp)
    simp [List.find?_cons, ha, ih hl]

/-- With `HOME` set, `glob` is called exactly once, with the pattern of line 172. -/
theorem globCalls_of_home (w : World) (info : retro_game_info) (home : CStr)
    (h : w.getenv HOME = some home) :
    globCalls (retro_load_game w info) = [globPattern home] := by
  by_cases hfit : strlen (resolveExecutable w (globPattern home)).1 + strlen info.path ≤ 508
  · exact (run_of_fits w info home h hfit).2.2.2
  · exact (run_of_not_fits w info home h (by omega)).2.2.2

/-- The suffix of the pattern has 38 bytes. -/
theorem patternSuffix_length : patternSuffix.length = 38 := by decide

/-- The pattern never exceeds 511 bytes. -/
theorem globPattern_length_le (home : CStr) : (globPattern home).length ≤ 511 := by
  simp [globPattern, snprintf, sizeof_path]

/-- Reading `HOME` in an environment that holds it. -/
theorem envWithHome_HOME (home : CStr) : envWithHome home HOME = some home := by
  simp [envWithHome]

/-- The length of `longExec`. -/
theorem longExec_length : longExec.length = 589 := by
  have h : "/.config/retroarch/system/rpcs3/rpcs3".toList.length = 37 := by decide
  simp only [longExec, midHome, List.length_cons, List.length_append, List.length_replicate, h]

/-- The length of `longHome`. -/
theorem longHome_length : longHome.length = 502 := by
  simp only [longHome, List.length_cons, List.length_append, List.length_replicate]

/-- The length of `longRom`. -/
theorem longRom_length : longRom.length = 510 := by
  have h1 : "/roms/".toList.length = 6 := by decide
  have h2 : ".bin".toList.length = 4 := by decide
  simp only [longRom, List.length_append, List.length_replicate, h1, h2]

/-- The path resolved from the list returned by `glob`. -/
theorem resolveExecutable_fst (w : World) (pattern : CStr) (pathv : List CStr)
    (h : w.glob pattern = some pathv) :
    (resolveExecutable w pattern).1
      = ((pathv.find? (isCandidate w.stat)).map (snprintf sizeof_rpcs3_exec)).getD [] := by
  rw [resolveExecutable, h]
  exact scanPathv_fst w.stat [] pathv

/-- The long path of `worldLongName` is a regular file. -/
theorem worldLongName_stat : worldLongName.stat longExec = some modeFile := by
  simp only [worldLongName, if_true]

/-- The only match in `worldLongName`. -/
theorem worldLongName_glob : worldLongName.glob (globPattern midHome) = some [longExec] := by
  simp only [worldLongName, if_true]

/-- In `worldInstalled` the directory is skipped and the binary is resolved. -/
theorem emuPath_resolved :
    (resolveExecutable (worldInstalled 0) (globPattern homeU)).1 = emuPath := by
  decide

/-! ## The claims -/

/-- Claim C1, evaluated on the code at a search that yields no candidate. With `HOME` set
and `glob` reporting no match, `rpcs3_exec` stays empty, and `retro_load_game` still
composes a command and calls `system` with it: the command is a blank followed by the
quoted content path, which the shell splits into the single word `/roms/game.bin`, so the
content file itself is what is run. The result is `false` when that fails and `true` when
it exits 0. The same happens when the only match is a directory. -/
theorem no_candidate_still_calls_system :
    (worldNoMatch 32256).getenv HOME = some homeU ∧
    (resolveExecutable (worldNoMatch 32256) (globPattern homeU)).1 = [] ∧
    retro_load_game (worldNoMatch 32256) { path := romPath }
      = { trace := [Event.getenv HOME, Event.glob (globPattern homeU),
                    Event.printf (pathLine " \x22/roms/game.bin\x22".toList),
                    Event.system " \x22/roms/game.bin\x22".toList,
                    Event.printf failedLine],
          outcome := Outcome.returned false } ∧
    shSplit " \x22/roms/game.bin\x22".toList = some [[romPath]] ∧
    (retro_load_game (worldNoMatch 0) { path := romPath }).outcome = Outcome.returned true ∧
    (resolveExecutable (worldOnlyDir 0) (globPattern homeU)).1 = [] ∧
    systemCalls (retro_load_game (worldOnlyDir 0) { path := romPath })
      = [" \x22/roms/game.bin\x22".toList] := by
  refine ⟨by decide, by decide, by decide, by decide, by decide, by decide, by decide⟩

/-- Claim C2: when `getenv("HOME")` returns NULL, `retro_load_game` returns `false` for
every content path, and its only library call is that `getenv`: no `glob`, no `stat`, no
`system`. -/
theorem home_absent_fails_without_access (w : World) (info : retro_game_info)
    (h : w.getenv HOME = none) :
    (retro_load_game w info).outcome = Outcome.returned false ∧
    (retro_load_game w info).trace = [Event.getenv HOME] ∧
    globCalls (retro_load_game w info) = [] ∧
    statCalls (retro_load_game w info) = [] ∧
    systemCalls (retro_load_game w info) = [] := by
  simp [retro_load_game, h, globCalls, statCalls, systemCalls, Event.globArg, Event.statArg,
    Event.systemArg]

/-- Claim C2 at a world without `HOME` in which the emulator is installed. -/
theorem home_absent_fails_without_access_witness :
    worldNoHome.getenv HOME = none ∧
    ((retro_load_game worldNoHome { path := romPath }).outcome = Outcome.returned false ∧
     (retro_load_game worldNoHome { path := romPath }).trace = [Event.getenv HOME] ∧
     globCalls (retro_load_game worldNoHome { path := romPath }) = [] ∧
     statCalls (retro_load_game worldNoHome { path := romPath }) = [] ∧
     systemCalls (retro_load_game worldNoHome { path := romPath }) = []) :=
  ⟨rfl, home_absent_fails_without_access worldNoHome { path := romPath } rfl⟩

/-- Claim C3 as stated fails at two inputs. (1) `glob` lists a dangling symbolic link before
the emulator binary: the first entry that is not a directory is the link, but `stat`
fails on it, the loop skips it and resolves the binary. (2) The only match is a regular
file whose path has 589 bytes: the resolved path is not that path (it is cut to 511
bytes). -/
theorem resolved_is_not_first_non_directory :
    (worldDangling.glob (globPattern homeU) = some [emuLink, emuPath] ∧
     firstNonDirectory worldDangling.stat [emuLink, emuPath] = some emuLink ∧
     (resolveExecutable worldDangling (globPattern homeU)).1 = emuPath ∧
     emuPath ≠ emuLink) ∧
    (worldLongName.glob (globPattern midHome) = some [longExec] ∧
     [longExec].filter (isCandidate worldLongName.stat) = [longExec] ∧
     firstNonDirectory worldLongName.stat [longExec] = some longExec ∧
     (resolveExecutable worldLongName (globPattern midHome)).1 ≠ longExec) := by
  refine ⟨by decide, ?_⟩
  have hmode : S_ISDIR modeFile = false := by decide
  have hc : isCandidate worldLongName.stat longExec = true := by
    rw [isCandidate, worldLongName_stat]
    simp only [hmode, Bool.not_false]
  have hd : isDirectory worldLongName.stat longExec = false := by
    rw [isDirectory, worldLongName_stat]
    exact hmode
  refine ⟨worldLongName_glob, ?_, ?_, ?_⟩
  · rw [List.filter_cons, hc, if_pos rfl, List.filter_nil]
  · rw [firstNonDirectory, List.find?_cons, hd]
    rfl
  · intro h
    have hlen := congrArg List.length h
    rw [resolveExecutable_fst _ _ _ worldLongName_glob, List.find?_cons, hc] at hlen
    simp only [Option.map_some', Option.getD_some, snprintf, sizeof_rpcs3_exec,
      List.length_take, longExec_length] at hlen
    omega

/-- Claim C3, amended: for every list `pathv` returned by `glob`, the resolved path is the
first entry, in enumeration order, on which `stat` succeeds and reports a non-directory,
cut to its first 511 bytes (and empty when there is no such entry); when exactly one entry
passes that test and its path has at most 511 bytes, the resolved path is that path
unchanged; and two snapshots with the same list and the same `stat` answers on its
entries resolve the same path. -/
theorem resolved_is_first_candidate_cut (w : World) (pattern : CStr) (pathv : List CStr)
    (hglob : w.glob pattern = some pathv) :
    (resolveExecutable w pattern).1
        = ((pathv.find? (isCandidate w.stat)).map fun p => p.take 511).getD [] ∧
    (∀ p : CStr, pathv.filter (isCandidate w.stat) = [p] → strlen p ≤ 511 →
        (resolveExecutable w pattern).1 = p) ∧
    (∀ w2 : World, w2.glob pattern = some pathv → (∀ p ∈ pathv, w2.stat p = w.stat p) →
        (resolveExecutable w2 pattern).1 = (resolveExecutable w pattern).1) := by
  have hres : ∀ v : World, v.glob pattern = some pathv →
      (resolveExecutable v pattern).1
        = ((pathv.find? (isCandidate v.stat)).map (snprintf sizeof_rpcs3_exec)).getD [] :=
    fun v hv => resolveExecutable_fst v pattern pathv hv
  refine ⟨hres w hglob, ?_, ?_⟩
  · intro p hp hlen
    rw [hres w hglob, find?_of_filter_singleton _ _ _ hp]
    exact snprintf_of_fits _ _ (by simp only [sizeof_rpcs3_exec]; omega)
  · intro w2 hglob2 hstat
    rw [hres w hglob, hres w2 hglob2]
    have hcand : ∀ p ∈ pathv, isCandidate w2.stat p = isCandidate w.stat p := by
      intro p hp
      simp [isCandidate, hstat p hp]
    rw [find?_congr_on _ _ _ hcand]

/-- Claim C3, amended, at the snapshot with a matching directory listed before the
emulator binary. -/
theorem resolved_is_first_candidate_cut_witness :
    (worldInstalled 0).glob (globPattern homeU) = some [emuDir, emuPath] ∧
    ((resolveExecutable (worldInstalled 0) (globPattern homeU)).1
        = (([emuDir, emuPath].find? (isCandidate (worldInstalled 0).stat)).map
            fun p => p.take 511).getD [] ∧
     (∀ p : CStr, [emuDir, emuPath].filter (isCandidate (worldInstalled 0).stat) = [p] →
        strlen p ≤ 511 → (resolveExecutable (worldInstalled 0) (globPattern homeU)).1 = p) ∧
     (∀ w2 : World, w2.glob (globPattern homeU) = some [emuDir, emuPath] →
        (∀ p ∈ [emuDir, emuPath], w2.stat p = (worldInstalled 0).stat p) →
        (resolveExecutable w2 (globPattern homeU)).1
          = (resolveExecutable (worldInstalled 0) (globPattern homeU)).1)) :=
  ⟨by decide, resolved_is_first_candidate_cut (worldInstalled 0) (globPattern homeU)
    [emuDir, emuPath] (by decide)⟩

/-- Claim C4, evaluated on the code at a content path of 510 bytes. `HOME` is set and the
emulator binary (61 bytes) is resolved, but composing the command needs 61 + 510 + 3
bytes and a terminator in the 512-byte array `rpcs3_exec`: the `strncat` loop writes past
its end, and the run ends in undefined behaviour with no call of `system` and no return
value, although `system` would have returned 0. -/
theorem long_content_overflows_before_system :
    (worldInstalled 0).getenv HOME = some homeU ∧
    (resolveExecutable (worldInstalled 0) (globPattern homeU)).1 = emuPath ∧
    strlen longRom = 510 ∧
    (retro_load_game (worldInstalled 0) { path := longRom }).outcome = Outcome.overflow ∧
    systemCalls (retro_load_game (worldInstalled 0) { path := longRom }) = [] := by
  have hfit : 508 < strlen (resolveExecutable (worldInstalled 0) (globPattern homeU)).1
      + strlen ({ path := longRom } : retro_game_info).path := by
    have he : strlen emuPath = 61 := by decide
    rw [emuPath_resolved]
    simp only [strlen, longRom_length] at he ⊢
    omega
  have hrun := run_of_not_fits (worldInstalled 0) { path := longRom } homeU
    (envWithHome_HOME homeU) hfit
  exact ⟨envWithHome_HOME homeU, emuPath_resolved, longRom_length, hrun.2.1, hrun.1⟩

/-- Claim C5, evaluated on the code at the resolved path of 61 bytes and a content path
of 510 bytes. The loop of lines 206-208 has to put 61 + 510 + 3 bytes and a terminator
into the 512-byte array `rpcs3_exec`: it leaves the array, so no composed command exists,
and the run prints and launches nothing. With the content path `/roms/game.bin` the same
loop leaves the resolved path, a space, a double quote, the content path unchanged and a
double quote. -/
theorem long_content_leaves_no_command :
    (resolveExecutable (worldInstalled 0) (globPattern homeU)).1 = emuPath ∧
    strlen emuPath + strlen longRom = 571 ∧
    composeInArray sizeof_rpcs3_exec emuPath (args longRom) = none ∧
    printed (retro_load_game (worldInstalled 0) { path := longRom }) = [] ∧
    composeInArray sizeof_rpcs3_exec emuPath (args romPath)
      = some (emuPath ++ [' '] ++ [chDQuote] ++ romPath ++ [chDQuote]) := by
  have he : strlen emuPath = 61 := by decide
  have hsum : strlen emuPath + strlen longRom = 571 := by
    simp only [strlen, longRom_length] at he ⊢
    omega
  have hfit : 508 < strlen (resolveExecutable (worldInstalled 0) (globPattern homeU)).1
      + strlen ({ path := longRom } : retro_game_info).path := by
    rw [emuPath_resolved]
    simp only [strlen, longRom_length] at he ⊢
    omega
  have hrun := run_of_not_fits (worldInstalled 0) { path := longRom } homeU
    (envWithHome_HOME homeU) hfit
  refine ⟨emuPath_resolved, hsum, composeInArray_of_not_fits emuPath longRom (by omega),
    hrun.2.2.1, ?_⟩
  rw [composeInArray_args, if_pos (by decide)]
  simp

/-- Claim C6, evaluated on the code at a content path with an embedded double quote:
`/roms/a"; reboot; "`. The command handed to `system` is the resolved binary followed by
the content path between double quotes with nothing escaped, and the shell splits it into
three commands: the emulator with the argument `/roms/a`, then `reboot`, then the empty
word. -/
theorem embedded_quote_yields_three_commands :
    systemCalls (retro_load_game (worldInstalled 0) { path := quoteRom })
      = [composeCommand emuPath (args quoteRom)] ∧
    shSplit (composeCommand emuPath (args quoteRom))
      = some [[emuPath, "/roms/a".toList], ["reboot".toList], [[]]] ∧
    shSplit (composeCommand emuPath (args quoteRom)) ≠ some [[emuPath, quoteRom]] := by
  refine ⟨by decide, by decide, by decide⟩

/-- Claim C7, evaluated on the code at the resolved path of 61 bytes and a content path
of 510 bytes. The executable path is non-empty and free of blanks and shell-special
characters, the content path is free of double quote, backslash, dollar and backquote, yet
the loop of lines 206-208 leaves the 512-byte array `rpcs3_exec`: there is no composed
command for the shell to split, and `system` is never called. -/
theorem long_content_reaches_no_shell :
    (emuPath ≠ [] ∧
     (∀ ch ∈ emuPath, shSpecial ch = false) ∧
     (∀ ch ∈ longRom, ch ≠ chDQuote ∧ ch ≠ chBackslash ∧ ch ≠ '$' ∧ ch ≠ chBacktick)) ∧
    (resolveExecutable (worldInstalled 0) (globPattern homeU)).1 = emuPath ∧
    (composeInArray sizeof_rpcs3_exec emuPath (args longRom)).bind shSplit = none ∧
    (composeInArray sizeof_rpcs3_exec emuPath (args longRom)).bind shSplit
      ≠ some [[emuPath, longRom]] ∧
    (retro_load_game (worldInstalled 0) { path := longRom }).trace
      = [Event.getenv HOME, Event.glob (globPattern homeU), Event.stat emuDir,
         Event.stat emuPath, Event.globfree] := by
  have he : strlen emuPath = 61 := by decide
  have hsum : 508 < strlen emuPath + strlen longRom := by
    simp only [strlen, longRom_length] at he ⊢
    omega
  have hnone := composeInArray_of_not_fits emuPath longRom hsum
  have hclean : ∀ ch ∈ longRom,
      ch ≠ chDQuote ∧ ch ≠ chBackslash ∧ ch ≠ '$' ∧ ch ≠ chBacktick := by
    have h1 : ∀ ch ∈ "/roms/".toList,
        ch ≠ chDQuote ∧ ch ≠ chBackslash ∧ ch ≠ '$' ∧ ch ≠ chBacktick := by decide
    have h2 : ∀ ch ∈ ".bin".toList,
        ch ≠ chDQuote ∧ ch ≠ chBackslash ∧ ch ≠ '$' ∧ ch ≠ chBacktick := by decide
    have h3 : 'a' ≠ chDQuote ∧ 'a' ≠ chBackslash ∧ 'a' ≠ '$' ∧ 'a' ≠ chBacktick := by decide
    intro ch hmem
    simp only [longRom, List.mem_append, List.mem_replicate] at hmem
    rcases hmem with h | ⟨_, h⟩ | h
    · exact h1 ch h
    · rw [h]
      exact h3
    · exact h2 ch h
  have hres : resolveExecutable (worldInstalled 0) (globPattern homeU)
      = (emuPath, [Event.glob (globPattern homeU), Event.stat emuDir, Event.stat emuPath,
          Event.globfree]) := by
    decide
  refine ⟨⟨by decide, by decide, hclean⟩, emuPath_resolved, ?_, ?_, ?_⟩
  · rw [hnone]
    rfl
  · rw [hnone]
    intro h
    cases h
  · rw [retro_load_game_of_home _ _ homeU (envWithHome_HOME homeU), hres,
      composeAndLaunch_of_not_fits _ _ _ _ hsum]

/-- Claim C8 as stated fails for a `HOME` of 502 bytes: the pattern handed to `glob` is
not `HOME` followed by `/.config/retroarch/system/rpcs3/rpcs3*` (540 bytes), it has 511
bytes. -/
theorem long_home_pattern_is_cut :
    worldLongHome.getenv HOME = some longHome ∧
    globCalls (retro_load_game worldLongHome { path := romPath })
      ≠ [longHome ++ patternSuffix] ∧
    ∀ pattern ∈ globCalls (retro_load_game worldLongHome { path := romPath }),
      strlen pattern = 511 := by
  have hg := globCalls_of_home worldLongHome { path := romPath } longHome
    (envWithHome_HOME longHome)
  have hlen : (globPattern longHome).length = 511 := by
    simp only [globPattern, snprintf, sizeof_path, List.length_take, List.length_append,
      longHome_length, patternSuffix_length]
    omega
  refine ⟨envWithHome_HOME longHome, ?_, ?_⟩
  · rw [hg]
    intro h
    have h2 := congrArg List.length (List.cons.inj h).1
    rw [hlen, List.length_append, longHome_length, patternSuffix_length] at h2
    omega
  · intro pattern hp
    rw [hg, List.mem_singleton] at hp
    rw [hp, strlen, hlen]

/-- Claim C8, amended: on the Linux branch, for every value of `HOME`, `glob` is called
once, with the first 511 bytes of `HOME` followed by
`/.config/retroarch/system/rpcs3/rpcs3*`; when `HOME` has at most 473 bytes this is
exactly `HOME` followed by that suffix. -/
theorem glob_pattern_is_home_suffix_cut (w : World) (info : retro_game_info) (home : CStr)
    (h : w.getenv HOME = some home) :
    globCalls (retro_load_game w info)
      = [(home ++ "/.config/retroarch/system/rpcs3/rpcs3*".toList).take 511] ∧
    (strlen home ≤ 473 →
      globCalls (retro_load_game w info)
        = [home ++ "/.config/retroarch/system/rpcs3/rpcs3*".toList]) := by
  have hg := globCalls_of_home w info home h
  refine ⟨hg, ?_⟩
  intro hlen
  rw [hg, globPattern, snprintf_of_fits]
  · rfl
  · simp only [strlen, List.length_append, patternSuffix_length, sizeof_path] at hlen ⊢
    omega

/-- Claim C8, amended, at `HOME=/home/u`. -/
theorem glob_pattern_is_home_suffix_cut_witness :
    (worldInstalled 0).getenv HOME = some homeU ∧
    (globCalls (retro_load_game (worldInstalled 0) { path := romPath })
      = [(homeU ++ "/.config/retroarch/system/rpcs3/rpcs3*".toList).take 511] ∧
     (strlen homeU ≤ 473 →
      globCalls (retro_load_game (worldInstalled 0) { path := romPath })
        = [homeU ++ "/.config/retroarch/system/rpcs3/rpcs3*".toList])) :=
  ⟨envWithHome_HOME homeU,
    glob_pattern_is_home_suffix_cut (worldInstalled 0) { path := romPath } homeU
      (envWithHome_HOME homeU)⟩

/-- Claim C9, evaluated on the code with `HOME` absent: `retro_load_game` returns `false`
and prints nothing. -/
theorem home_absent_prints_nothing :
    worldNoHome.getenv HOME = none ∧
    (retro_load_game worldNoHome { path := romPath }).outcome = Outcome.returned false ∧
    printed (retro_load_game worldNoHome { path := romPath }) = [] := by
  refine ⟨by decide, by decide, by decide⟩

/-- Claim C10: each `strncat` of the loop is bounded by the length of the piece it
appends, so it appends the piece in full; the composed command is the resolved path, a
space, a quote, the content path and a quote, of length `len(exec) + len(content) + 3`; it
fits in the 512-byte array `rpcs3_exec` with its terminator exactly when
`len(exec) + len(content) <= 508`; and `retro_load_game` neither rejects nor shortens a
longer content path: with `HOME` set, the run ends in the overflow exactly when the
resolved path and the content path exceed 508 bytes together, and any command handed to
`system` is the complete composed command. -/
theorem compose_loop_is_unbounded (w : World) (info : retro_game_info) (home e c : CStr)
    (h : w.getenv HOME = some home) :
    (∀ dest src : CStr, strncat dest src (strlen src) = dest ++ src) ∧
    composeCommand e (args c) = e ++ [' '] ++ [chDQuote] ++ c ++ [chDQuote] ∧
    strlen (composeCommand e (args c)) = strlen e + strlen c + 3 ∧
    (fitsBuffer sizeof_rpcs3_exec (composeCommand e (args c)) = true
      ↔ strlen e + strlen c ≤ 508) ∧
    sizeof_rpcs3_exec = 512 ∧
    ((retro_load_game w info).outcome = Outcome.overflow
      ↔ 508 < strlen (resolveExecutable w (globPattern home)).1 + strlen info.path) ∧
    (∀ command ∈ systemCalls (retro_load_game w info),
      command = composeCommand (resolveExecutable w (globPattern home)).1
        (args info.path)) := by
  refine ⟨strncat_strlen, ?_, strlen_composeCommand e c, fitsBuffer_composeCommand e c, rfl,
    ?_, ?_⟩
  · rw [composeCommand_args]
    simp
  · by_cases hfit : strlen (resolveExecutable w (globPattern home)).1 + strlen info.path ≤ 508
    · have hrun := run_of_fits w info home h hfit
      rw [hrun.2.1]
      constructor
      · intro hx
        cases hx
      · intro hx
        omega
    · have hrun := run_of_not_fits w info home h (by omega)
      rw [hrun.2.1]
      constructor
      · intro _
        omega
      · intro _
        rfl
  · intro command hmem
    by_cases hfit : strlen (resolveExecutable w (globPattern home)).1 + strlen info.path ≤ 508
    · rw [(run_of_fits w info home h hfit).1, List.mem_singleton] at hmem
      exact hmem
    · rw [(run_of_not_fits w info home h (by omega)).1] at hmem
      cases hmem

/-- Claim C10 at `HOME=/home/u`, the installed emulator and the content path
`/roms/game.bin`. -/
theorem compose_loop_is_unbounded_witness :
    (worldInstalled 0).getenv HOME = some homeU ∧
    strlen (composeCommand emuPath (args romPath)) = strlen emuPath + strlen romPath + 3 ∧
    (fitsBuffer sizeof_rpcs3_exec (composeCommand emuPath (args romPath)) = true
      ↔ strlen emuPath + strlen romPath ≤ 508) ∧
    ((retro_load_game (worldInstalled 0) { path := romPath }).outcome = Outcome.overflow
      ↔ 508 < strlen (resolveExecutable (worldInstalled 0) (globPattern homeU)).1
          + strlen romPath) :=
  ⟨envWithHome_HOME homeU,
    (compose_loop_is_unbounded (worldInstalled 0) { path := romPath } homeU emuPath romPath
      (envWithHome_HOME homeU)).2.2.1,
    (compose_loop_is_unbounded (worldInstalled 0) { path := romPath } homeU emuPath romPath
      (envWithHome_HOME homeU)).2.2.2.1,
    (compose_loop_is_unbounded (worldInstalled 0) { path := romPath } homeU emuPath romPath
      (envWithHome_HOME homeU)).2.2.2.2.2.1⟩

end Rpcs3Launcher
